import Mathlib

/-!
Shallow embedding of the Smart AI-based Activity Planner microservice
(src/app.py) and proofs about its specification.

Strings are modelled as `List Char` (ASCII model of the Python regex
character classes). Machine floats never enter any computation here: the
sentiment score is only carried through the handler, so it is modelled by
an opaque rational value. The two external capabilities (the sentiment
pipeline and the Groq chat-completion client) are modelled as explicit
parameters of the handler.
-/

namespace SmartPlanner

/-- ASCII model of the regex class `\d`. -/
def isDigitC (c : Char) : Bool := c.isDigit

/-- ASCII model of the regex class `\s` (space, tab, newline, carriage
return, vertical tab, form feed). -/
def isSpaceC (c : Char) : Bool :=
  c = ' ' || c = '\t' || c = '\n' || c = '\r' || c = Char.ofNat 11 || c = Char.ofNat 12

/-- ASCII model of the regex class `\w` (letters, digits, underscore). -/
def isWordC (c : Char) : Bool := c.isAlphanum || c = '_'

/-! ### The time-expression regex, `\d{1,2}(?::\d{2})?\s*(?:am|pm)?` (app.py line 51)

Each stage of the pattern is one split function consuming the text it
matches and returning the rest. All groups are greedy and the tail of the
pattern is entirely optional, so the regex engine never backtracks: the
greedy split functions are an exact model. -/

/-- The `\d{1,2}` stage (greedy: two digits when available). -/
def digitsSplit : List Char → List Char × List Char
  | c :: d :: r =>
    if isDigitC c then
      (if isDigitC d then ([c, d], r) else ([c], d :: r))
    else ([], c :: d :: r)
  | [c] => if isDigitC c then ([c], []) else ([], [c])
  | [] => ([], [])

/-- The `(?::\d{2})?` stage. -/
def colonSplit : List Char → List Char × List Char
  | c :: a :: b :: r =>
    if c = ':' ∧ isDigitC a ∧ isDigitC b then ([c, a, b], r)
    else ([], c :: a :: b :: r)
  | s => ([], s)

/-- The `\s*` stage (greedy). -/
def wsSplit (s : List Char) : List Char × List Char :=
  (s.takeWhile isSpaceC, s.dropWhile isSpaceC)

/-- The `(?:am|pm)?` stage, case-insensitive. -/
def suffixSplit : List Char → List Char × List Char
  | a :: m :: r =>
    if (a.toLower = 'a' ∨ a.toLower = 'p') ∧ m.toLower = 'm' then
      ([a, m], r)
    else ([], a :: m :: r)
  | s => ([], s)

/-- One attempt of the whole pattern anchored at the head of `s`:
the match requires at least one digit, everything after is optional.
Returns the matched text and the remaining input. -/
def timeMatchAt (s : List Char) : Option (List Char × List Char) :=
  match s with
  | [] => none
  | c :: _ =>
    if isDigitC c then
      let p1 := digitsSplit s
      let p2 := colonSplit p1.2
      let p3 := wsSplit p2.2
      let p4 := suffixSplit p3.2
      some (p1.1 ++ p2.1 ++ p3.1 ++ p4.1, p4.2)
    else none

/-- `re.findall` scanning: try a match at each position, consume matched
text (every match is nonempty), otherwise advance one character. The fuel
starts at the input length, which bounds the number of scanning steps. -/
def findallTimeAux : Nat → List Char → List (List Char)
  | 0, _ => []
  | _ + 1, [] => []
  | fuel + 1, c :: rest =>
    match timeMatchAt (c :: rest) with
    | some (m, r) => m :: findallTimeAux fuel r
    | none => findallTimeAux fuel rest

/-- `parse_time_range` (app.py lines 49-51):
`re.findall(r'(\d{1,2}(?::\d{2})?\s*(?:am|pm)?)', text, flags=re.I)`. -/
def parse_time_range (text : List Char) : List (List Char) :=
  findallTimeAux text.length text

/-! ### Python string helpers used by `build_tasks_from_text` -/

/-- A sentence-splitting delimiter of `re.split(r'[.,;]', ...)`. -/
def isDelimC (c : Char) : Bool := c = '.' || c = ',' || c = ';'

def pySplitAux : List Char → List Char → List (List Char)
  | [], acc => [acc.reverse]
  | c :: rest, acc =>
    if isDelimC c then acc.reverse :: pySplitAux rest []
    else pySplitAux rest (c :: acc)

/-- `re.split(r'[.,;]', raw_text)` (app.py line 56). -/
def pySplit (raw : List Char) : List (List Char) := pySplitAux raw []

/-- `str.strip()` (ASCII whitespace model). -/
def pyStrip (s : List Char) : List Char :=
  ((s.dropWhile isSpaceC).reverse.dropWhile isSpaceC).reverse

/-- `str.capitalize()`: first character upper-cased, all following
characters lower-cased (ASCII model). -/
def pyCapitalize : List Char → List Char
  | [] => []
  | c :: rest => c.toUpper :: rest.map Char.toLower

/-- The tail of `t` from its first newline on (empty when `t` has none). -/
def nlTail (t : List Char) : List Char := t.dropWhile (fun c => c ≠ '\n')

/-- Whether `.*$` (neither DOTALL nor MULTILINE) can consume all of `t`:
true when `t` has no newline, or its only newline is its final character. -/
def dollarOk (t : List Char) : Bool := (nlTail t).length ≤ 1

/-- The `\b` test before a digit: satisfied at the very start of the text
or after a non-word character. `prev` is the preceding character, if any. -/
def prevOk : Option Char → Bool
  | none => true
  | some p => !isWordC p

/-- `re.sub(r'\b\d.*$', '', s)` (app.py line 63): delete from the first
digit that sits at a word boundary and whose line runs to the end of the
string; a lone final newline survives the deletion (`$` matches before
it) and nothing after it can rematch. `prev` is the character just before
`s`, needed for the `\b` test while scanning. -/
def pySubAux : Option Char → List Char → List Char
  | _, [] => []
  | prev, c :: rest =>
    if isDigitC c && prevOk prev && dollarOk rest then
      nlTail rest
    else
      c :: pySubAux (some c) rest

def pySubTitle (s : List Char) : List Char := pySubAux none s

/-- The title computation of app.py lines 63-65:
`re.sub(r'\b\d.*$', '', s).strip().capitalize()`, defaulting to "Task". -/
def mkTitle (s : List Char) : List Char :=
  let t := pyCapitalize (pyStrip (pySubTitle s))
  if t = [] then "Task".toList else t

/-! ### Tasks -/

/-- A task record: `{"title": ..., "start": ..., "end": ...}`. The start
and end slots are produced by `(times + [None])[:2]`, so both are
`Option`-typed in the Python data model. -/
structure Task where
  title : List Char
  start : Option (List Char)
  «end» : Option (List Char)
deriving DecidableEq, Repr

/-- The loop body of `build_tasks_from_text` over the surviving sentences
(app.py lines 57-70). -/
def buildTasksAux : List (List Char) → List Task
  | [] => []
  | s :: rest =>
    match parse_time_range s with
    | [] => buildTasksAux rest
    | t :: ts =>
      { title := mkTitle s, start := some t, «end» := ts.head? } :: buildTasksAux rest

/-- `build_tasks_from_text` (app.py lines 54-71). -/
def build_tasks_from_text (raw : List Char) : List Task :=
  buildTasksAux (((pySplit raw).map pyStrip).filter (fun s => !s.isEmpty))

/-! ### Suggestion generation (app.py lines 77-130) -/

/-- One decoded suggestion record of the LLM's JSON array. -/
structure Suggestion where
  title : List Char
  start : List Char
  «end» : List Char
deriving DecidableEq, Repr

/-- The outcome of the one chat-completion network call: either the
response text, or any raised error. -/
inductive LLMOutcome where
  | ok (response : List Char)
  | error
deriving DecidableEq, Repr

/-- The prefix of `s` up to and including its last ']'. -/
def takeToLastClose (s : List Char) : List Char :=
  (s.reverse.dropWhile (fun c => c ≠ ']')).reverse

/-- `re.search(r'\[.*\]', s, re.DOTALL)` (app.py line 122): the match, when
it exists, runs from the first '[' that has a later ']' through the last
']' of the string (greedy `.*` over any character). -/
def extractSpan : List Char → Option (List Char)
  | [] => none
  | c :: rest =>
    if c = '[' && rest.contains ']' then some ('[' :: takeToLastClose rest)
    else extractSpan rest

set_option linter.unusedVariables false in
/-- `generate_dynamic_suggestions` (app.py lines 77-130). `client` is the
process-wide Groq handle (`none` when its construction failed at startup);
`outcome` is the behaviour of the one chat-completion call; `decode`
models strict `json.loads` on a candidate span (`none` meaning
`JSONDecodeError`, which the surrounding `try` absorbs). The boolean in
the result records whether the external chat-completion request was
issued. The emotion only feeds the prompt text, which is subsumed by
`outcome`. -/
def generate_dynamic_suggestions (tasks : List Task) (emotion : List Char)
    (client : Option Unit) (outcome : LLMOutcome)
    (decode : List Char → Option (List Suggestion)) : Bool × List Suggestion :=
  if tasks.isEmpty || client.isNone then (false, [])
  else
    match outcome with
    | LLMOutcome.error => (true, [])
    | LLMOutcome.ok resp =>
      match extractSpan (pyStrip resp) with
      | none => (true, [])
      | some span =>
        match decode span with
        | none => (true, [])
        | some suggs => (true, suggs)

/-! ### The `/api/plan` handler (app.py lines 136-172) -/

/-- The success envelope (app.py lines 160-171). The score is the raw
classifier confidence, carried through unchanged; it is modelled as an
opaque rational. -/
structure Envelope where
  sentiment : List Char
  score : ℚ
  detectedEmotion : List Char
  taskCount : Nat
  tasks : List Task
  suggestions : List Suggestion
  message : List Char
deriving DecidableEq, Repr

/-- A JSON response body: either `{"error": msg}` or the envelope. -/
inductive Body where
  | error (msg : List Char)
  | envelope (e : Envelope)
deriving DecidableEq, Repr

def hecticMessage : List Char :=
  "Day looks hectic. I’ve suggested some breaks below.".toList

def balancedMessage : List Char :=
  "Your plan seems balanced. Here are some gentle wellness suggestions.".toList

/-- `plan_day` (app.py lines 136-172). `textField` is `data.get("text")`
of the JSON body; `pipelineLoaded` says whether the sentiment model loaded
at startup; `classify` is the black-box sentiment pipeline returning a
(label, score) pair. Returns the HTTP status and the JSON body. -/
def plan_day (textField : Option (List Char)) (pipelineLoaded : Bool)
    (classify : List Char → List Char × ℚ)
    (client : Option Unit) (outcome : LLMOutcome)
    (decode : List Char → Option (List Suggestion)) : Nat × Body :=
  let text := textField.getD []
  if text.isEmpty then (400, Body.error ("No text provided".toList))
  else if !pipelineLoaded then (500, Body.error ("Sentiment model not loaded".toList))
  else
    let senti := classify (text.take 500)
    let tasks := build_tasks_from_text text
    let workload := tasks.length
    let hectic : Bool := decide (8 ≤ workload)
    let emotion := if senti.1 = "NEGATIVE".toList ∨ hectic then "Stressed".toList
      else "Balanced".toList
    let suggestions := (generate_dynamic_suggestions tasks emotion client outcome decode).2
    (200, Body.envelope {
      sentiment := senti.1
      score := senti.2
      detectedEmotion := emotion
      taskCount := workload
      tasks := tasks
      suggestions := suggestions
      message := if hectic then hecticMessage else balancedMessage })

/-! ### Accessors on responses, for stating the claims -/

def respEnvelope : Nat × Body → Option Envelope
  | (_, Body.envelope e) => some e
  | _ => none

def emotionOf (r : Nat × Body) : Option (List Char) :=
  (respEnvelope r).map Envelope.detectedEmotion

def sentimentOf (r : Nat × Body) : Option (List Char) :=
  (respEnvelope r).map Envelope.sentiment

def scoreOf (r : Nat × Body) : Option ℚ :=
  (respEnvelope r).map Envelope.score

def countOf (r : Nat × Body) : Option Nat :=
  (respEnvelope r).map Envelope.taskCount

def tasksOf (r : Nat × Body) : Option (List Task) :=
  (respEnvelope r).map Envelope.tasks

def suggestionsOf (r : Nat × Body) : Option (List Suggestion) :=
  (respEnvelope r).map Envelope.suggestions

def messageOf (r : Nat × Body) : Option (List Char) :=
  (respEnvelope r).map Envelope.message

/-! ### Spec-side definitions

These render the spec's words, to be compared with the definitions
embedded from the source. -/

/-- Length matched by the `\d{1,2}` stage at the head of `s`. -/
def digitsLen : List Char → Nat
  | c :: d :: _ => if isDigitC c then (if isDigitC d then 2 else 1) else 0
  | [c] => if isDigitC c then 1 else 0
  | [] => 0

/-- Length matched by the `(?::\d{2})?` stage at the head of `s`. -/
def colonLen : List Char → Nat
  | c :: a :: b :: _ => if c = ':' ∧ isDigitC a ∧ isDigitC b then 3 else 0
  | _ => 0

/-- Length matched by the `\s*` stage at the head of `s`. -/
def wsLen (s : List Char) : Nat := (s.takeWhile isSpaceC).length

/-- Length matched by the case-insensitive `(?:am|pm)?` stage. -/
def suffixLen : List Char → Nat
  | a :: m :: _ =>
    if (a.toLower = 'a' ∨ a.toLower = 'p') ∧ m.toLower = 'm' then 2 else 0
  | _ => 0

/-- Length of the time-expression match at the head of `s` per the amended
C7 wording: 1-2 digits, then an optional ':' with two digits, then any run
of whitespace, then an optional am/pm suffix; no match without a leading
digit. -/
def amendedTimeMatchLen (s : List Char) : Option Nat :=
  let d := digitsLen s
  if d = 0 then none
  else
    let k := colonLen (s.drop d)
    let w := wsLen (s.drop (d + k))
    let f := suffixLen (s.drop (d + k + w))
    some (d + k + w + f)

/-- Left-to-right non-overlapping scan collecting the amended-pattern
matches. -/
def amendedFindAux : Nat → List Char → List (List Char)
  | 0, _ => []
  | _ + 1, [] => []
  | fuel + 1, c :: rest =>
    match amendedTimeMatchLen (c :: rest) with
    | some n => (c :: rest).take n :: amendedFindAux fuel ((c :: rest).drop n)
    | none => amendedFindAux fuel rest

/-- The sequence of substrings matching the amended C7 pattern, in order
of appearance, without deduplication. -/
def amendedTimeMatches (s : List Char) : List (List Char) :=
  amendedFindAux s.length s

/-- Length of a match of the pattern exactly as C7 words it: 1-2 digits,
optionally followed by ':' and two digits, optionally followed by an
am/pm suffix — with no whitespace anywhere. -/
def claimTimeMatchLen (s : List Char) : Option Nat :=
  let d := digitsLen s
  if d = 0 then none
  else
    let k := colonLen (s.drop d)
    let f := suffixLen (s.drop (d + k))
    some (d + k + f)

/-- Left-to-right non-overlapping scan collecting the claimed-pattern
matches. -/
def claimFindAux : Nat → List Char → List (List Char)
  | 0, _ => []
  | _ + 1, [] => []
  | fuel + 1, c :: rest =>
    match claimTimeMatchLen (c :: rest) with
    | some n => (c :: rest).take n :: claimFindAux fuel ((c :: rest).drop n)
    | none => claimFindAux fuel rest

/-- The sequence of substrings matching the pattern exactly as C7 words
it, in order of appearance. -/
def claimTimeMatches (s : List Char) : List (List Char) :=
  claimFindAux s.length s

/-- The title exactly as C5 words it: delete everything from the first
digit found onward, trim whitespace, upper-case the first character of
the remainder; if empty, "Task". -/
def claimTitleC5 (s : List Char) : List Char :=
  let t := match pyStrip (s.takeWhile (fun c => !isDigitC c)) with
    | [] => []
    | c :: r => c.toUpper :: r
  if t = [] then "Task".toList else t

/-- Boundary-digit test at index `i` of `s`, where `prev` is the character
just before `s`: `s[i]` is a digit, the character before it (if any) is
not a word character, and no newline follows it except possibly as the
final character. -/
def bdDigit (prev : Option Char) (s : List Char) (i : Nat) : Bool :=
  (match s[i]? with | some c => isDigitC c | none => false) &&
  prevOk (if i = 0 then prev else s[i - 1]?) &&
  dollarOk (s.drop (i + 1))

/-- Index of the first deletion point per the amended C5 wording. -/
def boundaryDigitIdx (s : List Char) : Option Nat :=
  (List.range s.length).find? (bdDigit none s)

/-- The title per the amended C5 wording: delete everything from the
first digit that is not immediately preceded by a letter, digit or
underscore and that no newline follows (except possibly as the fragment's
final character), trim whitespace, upper-case the first character and
lower-case the rest; if empty, "Task". -/
def amendedTitleC5 (s : List Char) : List Char :=
  let base := match boundaryDigitIdx s with
    | none => s
    | some i => s.take i
  let t := pyCapitalize (pyStrip base)
  if t = [] then "Task".toList else t

/-- The Task Builder's surviving fragments per the C4 wording: split on
'.', ',' and ';', trim each fragment, discard the empty ones. -/
def specFragments (raw : List Char) : List (List Char) :=
  ((pySplit raw).map pyStrip).filter (fun s => !s.isEmpty)

/-- The task a fragment yields per the C4 wording: none when the
time-expression extraction yields zero matches, otherwise the first
extracted time as start and the second (or null) as end. -/
def specTaskOfFragment (s : List Char) : Option Task :=
  let times := parse_time_range s
  if times.isEmpty then none
  else some { title := mkTitle s, start := times.head?, «end» := times[1]? }

/-- The Task Builder per the C4 wording: one task per surviving fragment
with at least one time match, in input order. -/
def specTasks (raw : List Char) : List Task :=
  (specFragments raw).filterMap specTaskOfFragment

/-- The failure modes of the chat-completion step described by C1: the
call raises, or the response has no bracketed span, or its span fails
strict JSON decoding. -/
def failedOutcome (outcome : LLMOutcome)
    (decode : List Char → Option (List Suggestion)) : Prop :=
  outcome = LLMOutcome.error ∨
  ∃ r, outcome = LLMOutcome.ok r ∧
    (extractSpan (pyStrip r) = none ∨
     ∃ sp, extractSpan (pyStrip r) = some sp ∧ decode sp = none)

/-- A concrete classifier stub, for instantiating theorems. -/
def classify0 : List Char → List Char × ℚ := fun _ => ("POSITIVE".toList, 0)

/-- A concrete always-failing JSON decoder, for instantiating theorems. -/
def decode0 : List Char → Option (List Suggestion) := fun _ => none

/-! ### Supporting lemmas: the regex stages split by their match lengths -/

lemma take_length_takeWhile (p : Char → Bool) (s : List Char) :
    s.take ((s.takeWhile p).length) = s.takeWhile p := by
  induction s with
  | nil => rfl
  | cons c cs ih => by_cases h : p c <;> simp [List.takeWhile_cons, h, ih]

lemma drop_length_takeWhile (p : Char → Bool) (s : List Char) :
    s.drop ((s.takeWhile p).length) = s.dropWhile p := by
  induction s with
  | nil => rfl
  | cons c cs ih => by_cases h : p c <;> simp [List.takeWhile_cons, List.dropWhile_cons, h, ih]

lemma digitsSplit_eq (s : List Char) :
    digitsSplit s = (s.take (digitsLen s), s.drop (digitsLen s)) := by
  match s with
  | [] => rfl
  | [c] => by_cases h : isDigitC c <;> simp [digitsSplit, digitsLen, h]
  | c :: d :: r =>
    by_cases h : isDigitC c
    · by_cases h2 : isDigitC d <;> simp [digitsSplit, digitsLen, h, h2]
    · simp [digitsSplit, digitsLen, h]

lemma colonSplit_eq (s : List Char) :
    colonSplit s = (s.take (colonLen s), s.drop (colonLen s)) := by
  match s with
  | [] => rfl
  | [x] => simp [colonSplit, colonLen]
  | [x, y] => simp [colonSplit, colonLen]
  | c :: a :: b :: r =>
    by_cases h : c = ':' ∧ isDigitC a ∧ isDigitC b <;> simp [colonSplit, colonLen, h]

lemma wsSplit_eq (s : List Char) :
    wsSplit s = (s.take (wsLen s), s.drop (wsLen s)) := by
  simp [wsSplit, wsLen, take_length_takeWhile, drop_length_takeWhile]

lemma suffixSplit_eq (s : List Char) :
    suffixSplit s = (s.take (suffixLen s), s.drop (suffixLen s)) := by
  match s with
  | [] => rfl
  | [x] => simp [suffixSplit, suffixLen]
  | a :: m :: r =>
    by_cases h : (a.toLower = 'a' ∨ a.toLower = 'p') ∧ m.toLower = 'm' <;>
      simp [suffixSplit, suffixLen, h]

lemma timeMatchAt_eq (s : List Char) :
    timeMatchAt s = (amendedTimeMatchLen s).map (fun n => (s.take n, s.drop n)) := by
  cases s with
  | nil => rfl
  | cons c cs =>
    by_cases hd : isDigitC c
    · have hne : ¬ digitsLen (c :: cs) = 0 := by
        match cs with
        | [] => simp [digitsLen, hd]
        | d :: r => by_cases h2 : isDigitC d <;> simp [digitsLen, hd, h2]
      simp only [timeMatchAt, hd, if_pos, amendedTimeMatchLen, hne, if_neg,
        Option.map_some', digitsSplit_eq, colonSplit_eq, wsSplit_eq, suffixSplit_eq]
      simp only [List.drop_drop]
      refine congrArg some (Prod.ext ?_ ?_) <;>
        simp [List.take_add, List.drop_drop, List.append_assoc]
    · have h0 : digitsLen (c :: cs) = 0 := by
        cases cs <;> simp [digitsLen, hd]
      simp [timeMatchAt, hd, amendedTimeMatchLen, h0]

/-! ### Supporting lemmas: the `re.sub` scanner as an index search -/

lemma pySubAux_eq_find : ∀ (s : List Char) (prev : Option Char),
    pySubAux prev s =
      (match (List.range s.length).find? (bdDigit prev s) with
       | none => s
       | some i => s.take i ++ nlTail (s.drop (i + 1))) := by
  intro s
  induction s with
  | nil => intro prev; rfl
  | cons c cs ih =>
    intro prev
    have hshift : (bdDigit prev (c :: cs)) ∘ Nat.succ = bdDigit (some c) cs := by
      funext i
      cases i with
      | zero => simp [bdDigit]
      | succ j => simp [bdDigit]
    have hlen : (c :: cs).length = cs.length + 1 := rfl
    rw [hlen, List.range_succ_eq_map, List.find?_cons]
    cases hcond : bdDigit prev (c :: cs) 0 with
    | true =>
      have hg : (isDigitC c && prevOk prev && dollarOk cs) = true := by
        simpa [bdDigit] using hcond
      simp [pySubAux, hg]
    | false =>
      have hg : (isDigitC c && prevOk prev && dollarOk cs) = false := by
        simpa [bdDigit] using hcond
      rw [List.find?_map, hshift]
      cases hfind : (List.range cs.length).find? (bdDigit (some c) cs) with
      | none => simp [pySubAux, hg, ih, hfind]
      | some i => simp [pySubAux, hg, ih, hfind]

lemma pySubTitle_eq_find (s : List Char) :
    pySubTitle s =
      (match boundaryDigitIdx s with
       | none => s
       | some i => s.take i ++ nlTail (s.drop (i + 1))) :=
  pySubAux_eq_find s none

lemma nlTail_eq_nil_or_newline (t : List Char) :
    nlTail t = [] ∨ ∃ u, nlTail t = '\n' :: u := by
  induction t with
  | nil => exact Or.inl rfl
  | cons c cs ih =>
    by_cases h : c = '\n'
    · exact Or.inr ⟨cs, by simp [nlTail, List.dropWhile_cons, h]⟩
    · simpa [nlTail, List.dropWhile_cons, h] using ih

lemma nlTail_of_dollarOk {t : List Char} (h : dollarOk t = true) :
    nlTail t = [] ∨ nlTail t = ['\n'] := by
  have hlen : (nlTail t).length ≤ 1 := by simpa [dollarOk] using h
  rcases nlTail_eq_nil_or_newline t with h0 | ⟨u, hu⟩
  · exact Or.inl h0
  · right
    rw [hu]
    rw [hu] at hlen
    simp only [List.length_cons] at hlen
    have : u = [] := List.eq_nil_of_length_eq_zero (by omega)
    rw [this]

lemma pyStrip_append_newline (u : List Char) : pyStrip (u ++ ['\n']) = pyStrip u := by
  have hnl : isSpaceC '\n' = true := rfl
  unfold pyStrip
  rw [List.dropWhile_append]
  by_cases h : (List.dropWhile isSpaceC u).isEmpty
  · rw [if_pos h]
    rw [List.isEmpty_iff.mp h]
    simp [List.dropWhile_cons, hnl]
  · rw [if_neg h]
    rw [List.reverse_append]
    simp [List.dropWhile_cons, hnl]

lemma dollarOk_of_boundaryDigitIdx {s : List Char} {i : Nat}
    (h : boundaryDigitIdx s = some i) : dollarOk (s.drop (i + 1)) = true := by
  have hp := List.find?_some h
  simp only [bdDigit, Bool.and_eq_true] at hp
  exact hp.2

/-- The title computation agrees with the amended C5 description. -/
lemma mkTitle_eq_amended (s : List Char) : mkTitle s = amendedTitleC5 s := by
  unfold mkTitle amendedTitleC5
  rw [pySubTitle_eq_find]
  cases hidx : boundaryDigitIdx s with
  | none => rfl
  | some i =>
    rcases nlTail_of_dollarOk (dollarOk_of_boundaryDigitIdx hidx) with h | h <;>
      simp [h, pyStrip_append_newline]

lemma findallTimeAux_eq_amended (fuel : Nat) :
    ∀ s, findallTimeAux fuel s = amendedFindAux fuel s := by
  induction fuel with
  | zero => intro s; rfl
  | succ n ih =>
    intro s
    cases s with
    | nil => rfl
    | cons c cs =>
      simp only [findallTimeAux, amendedFindAux, timeMatchAt_eq]
      cases h : amendedTimeMatchLen (c :: cs) with
      | none => simpa using ih cs
      | some nlen => simp [ih]

/-! ### Supporting lemmas: the Task Builder loop -/

lemma buildTasksAux_eq_filterMap :
    ∀ l, buildTasksAux l = l.filterMap specTaskOfFragment := by
  intro l
  induction l with
  | nil => rfl
  | cons s rest ih =>
    simp only [buildTasksAux, List.filterMap_cons]
    cases h : parse_time_range s with
    | nil => simp [specTaskOfFragment, h, ih]
    | cons t ts =>
      simp [specTaskOfFragment, h, ih, List.head?_eq_getElem?]

lemma mkTitle_ne_nil (s : List Char) : mkTitle s ≠ [] := by
  by_cases h : pyCapitalize (pyStrip (pySubTitle s)) = []
  · simp [mkTitle, h]
  · simp [mkTitle, h]

lemma mem_buildTasksAux {l : List (List Char)} {t : Task}
    (ht : t ∈ buildTasksAux l) : t.start.isSome = true ∧ t.title ≠ [] := by
  induction l with
  | nil => simp [buildTasksAux] at ht
  | cons s rest ih =>
    rw [buildTasksAux] at ht
    rcases h : parse_time_range s with _ | ⟨x, xs⟩
    · rw [h] at ht
      exact ih ht
    · rw [h] at ht
      rcases List.mem_cons.mp ht with h1 | h1
      · subst h1
        exact ⟨rfl, mkTitle_ne_nil s⟩
      · exact ih h1

lemma buildTasksAux_titles :
    ∀ l, (buildTasksAux l).map Task.title
      = (l.filter (fun s => !(parse_time_range s).isEmpty)).map amendedTitleC5 := by
  intro l
  induction l with
  | nil => rfl
  | cons s rest ih =>
    simp only [buildTasksAux, List.filter_cons]
    cases h : parse_time_range s with
    | nil => simp [h, ih]
    | cons t ts => simp [h, ih, mkTitle_eq_amended]

/-! ### Supporting lemmas: reductions of the success path of `plan_day` -/

lemma sentimentOf_plan_day (text : List Char) (htext : text ≠ [])
    (classify : List Char → List Char × ℚ) (client : Option Unit)
    (outcome : LLMOutcome) (decode : List Char → Option (List Suggestion)) :
    sentimentOf (plan_day (some text) true classify client outcome decode)
      = some (classify (text.take 500)).1 := by
  cases text with
  | nil => exact absurd rfl htext
  | cons c cs => simp [plan_day, sentimentOf, respEnvelope]

lemma scoreOf_plan_day (text : List Char) (htext : text ≠ [])
    (classify : List Char → List Char × ℚ) (client : Option Unit)
    (outcome : LLMOutcome) (decode : List Char → Option (List Suggestion)) :
    scoreOf (plan_day (some text) true classify client outcome decode)
      = some (classify (text.take 500)).2 := by
  cases text with
  | nil => exact absurd rfl htext
  | cons c cs => simp [plan_day, scoreOf, respEnvelope]

lemma tasksOf_plan_day (text : List Char) (htext : text ≠ [])
    (classify : List Char → List Char × ℚ) (client : Option Unit)
    (outcome : LLMOutcome) (decode : List Char → Option (List Suggestion)) :
    tasksOf (plan_day (some text) true classify client outcome decode)
      = some (build_tasks_from_text text) := by
  cases text with
  | nil => exact absurd rfl htext
  | cons c cs => simp [plan_day, tasksOf, respEnvelope]

lemma countOf_plan_day (text : List Char) (htext : text ≠ [])
    (classify : List Char → List Char × ℚ) (client : Option Unit)
    (outcome : LLMOutcome) (decode : List Char → Option (List Suggestion)) :
    countOf (plan_day (some text) true classify client outcome decode)
      = some (build_tasks_from_text text).length := by
  cases text with
  | nil => exact absurd rfl htext
  | cons c cs => simp [plan_day, countOf, respEnvelope]

lemma emotionOf_plan_day (text : List Char) (htext : text ≠ [])
    (classify : List Char → List Char × ℚ) (client : Option Unit)
    (outcome : LLMOutcome) (decode : List Char → Option (List Suggestion)) :
    emotionOf (plan_day (some text) true classify client outcome decode)
      = some (if (classify (text.take 500)).1 = "NEGATIVE".toList ∨
            8 ≤ (build_tasks_from_text text).length
          then "Stressed".toList else "Balanced".toList) := by
  cases text with
  | nil => exact absurd rfl htext
  | cons c cs => simp [plan_day, emotionOf, respEnvelope]

lemma messageOf_plan_day (text : List Char) (htext : text ≠ [])
    (classify : List Char → List Char × ℚ) (client : Option Unit)
    (outcome : LLMOutcome) (decode : List Char → Option (List Suggestion)) :
    messageOf (plan_day (some text) true classify client outcome decode)
      = some (if 8 ≤ (build_tasks_from_text text).length
          then hecticMessage else balancedMessage) := by
  cases text with
  | nil => exact absurd rfl htext
  | cons c cs => simp [plan_day, messageOf, respEnvelope]

lemma suggestionsOf_plan_day (text : List Char) (htext : text ≠ [])
    (classify : List Char → List Char × ℚ) (client : Option Unit)
    (outcome : LLMOutcome) (decode : List Char → Option (List Suggestion)) :
    suggestionsOf (plan_day (some text) true classify client outcome decode)
      = some (generate_dynamic_suggestions (build_tasks_from_text text)
          (if (classify (text.take 500)).1 = "NEGATIVE".toList ∨
              8 ≤ (build_tasks_from_text text).length
            then "Stressed".toList else "Balanced".toList)
          client outcome decode).2 := by
  cases text with
  | nil => exact absurd rfl htext
  | cons c cs => simp [plan_day, suggestionsOf, respEnvelope]

lemma status_plan_day (text : List Char) (htext : text ≠ [])
    (classify : List Char → List Char × ℚ) (client : Option Unit)
    (outcome : LLMOutcome) (decode : List Char → Option (List Suggestion)) :
    (plan_day (some text) true classify client outcome decode).1 = 200 := by
  cases text with
  | nil => exact absurd rfl htext
  | cons c cs => simp [plan_day]

lemma gds_failure {tasks : List Task} {emotion : List Char}
    {client : Option Unit} {outcome : LLMOutcome}
    {decode : List Char → Option (List Suggestion)}
    (hfail : failedOutcome outcome decode) :
    (generate_dynamic_suggestions tasks emotion client outcome decode).2 = [] := by
  unfold generate_dynamic_suggestions
  by_cases hskip : tasks.isEmpty || client.isNone
  · simp [hskip]
  · rcases hfail with h | ⟨r, hr, hspan⟩
    · subst h; simp [hskip]
    · subst hr
      rcases hspan with h | ⟨sp, hsp, hdec⟩
      · simp [hskip, h]
      · simp [hskip, hsp, hdec]

/-! ### The claims -/

/-- C1: for every task list, emotion label and failed LLM-call outcome
(a raised error, a response with no bracketed span, or a span that fails
strict JSON decoding), the Suggestion Generator returns the empty list
and does not propagate the failure; a `/api/plan` request that otherwise
succeeds still completes with HTTP 200 and empty suggestions. -/
theorem suggestion_failure_collapses_to_empty
    (tasks : List Task) (emotion : List Char) (client : Option Unit)
    (outcome : LLMOutcome) (decode : List Char → Option (List Suggestion))
    (text : List Char) (classify : List Char → List Char × ℚ)
    (htext : text ≠ []) (hfail : failedOutcome outcome decode) :
    (generate_dynamic_suggestions tasks emotion client outcome decode).2 = [] ∧
    (plan_day (some text) true classify client outcome decode).1 = 200 ∧
    suggestionsOf (plan_day (some text) true classify client outcome decode)
      = some [] := by
  refine ⟨gds_failure hfail,
    status_plan_day text htext classify client outcome decode, ?_⟩
  rw [suggestionsOf_plan_day text htext classify client outcome decode,
    gds_failure hfail]

theorem suggestion_failure_collapses_to_empty_witness :
    (generate_dynamic_suggestions [] [] none LLMOutcome.error decode0).2 = [] ∧
    (plan_day (some ("hi".toList)) true classify0 none LLMOutcome.error decode0).1
      = 200 ∧
    suggestionsOf
        (plan_day (some ("hi".toList)) true classify0 none LLMOutcome.error decode0)
      = some [] :=
  suggestion_failure_collapses_to_empty [] [] none LLMOutcome.error decode0
    ("hi".toList) classify0 (by decide) (Or.inl rfl)

/-- C2: a POST to `/api/plan` with absent or empty text yields status 400
with body `{"error": "No text provided"}`; otherwise, with the sentiment
classifier unavailable, status 500 with `{"error": "Sentiment model not
loaded"}`; otherwise status 200 with the success envelope; no other
status is possible. -/
theorem plan_day_status_partition
    (textField : Option (List Char)) (pipelineLoaded : Bool)
    (classify : List Char → List Char × ℚ) (client : Option Unit)
    (outcome : LLMOutcome) (decode : List Char → Option (List Suggestion)) :
    (textField.getD [] = [] →
      plan_day textField pipelineLoaded classify client outcome decode
        = (400, Body.error ("No text provided".toList))) ∧
    (textField.getD [] ≠ [] → pipelineLoaded = false →
      plan_day textField pipelineLoaded classify client outcome decode
        = (500, Body.error ("Sentiment model not loaded".toList))) ∧
    (textField.getD [] ≠ [] → pipelineLoaded = true →
      (plan_day textField pipelineLoaded classify client outcome decode).1 = 200 ∧
      (respEnvelope
        (plan_day textField pipelineLoaded classify client outcome decode)).isSome
        = true) ∧
    ((plan_day textField pipelineLoaded classify client outcome decode).1 = 400 ∨
     (plan_day textField pipelineLoaded classify client outcome decode).1 = 500 ∨
     (plan_day textField pipelineLoaded classify client outcome decode).1 = 200) := by
  by_cases he : textField.getD [] = []
  · have hplan : plan_day textField pipelineLoaded classify client outcome decode
        = (400, Body.error ("No text provided".toList)) := by
      simp [plan_day, he]
    exact ⟨fun _ => hplan, fun hne => absurd he hne, fun hne => absurd he hne,
      Or.inl (by rw [hplan])⟩
  · have hie : (textField.getD []).isEmpty = false := List.isEmpty_eq_false.mpr he
    cases pipelineLoaded with
    | false =>
      have hplan : plan_day textField false classify client outcome decode
          = (500, Body.error ("Sentiment model not loaded".toList)) := by
        simp [plan_day, hie]
      exact ⟨fun h => absurd h he, fun _ _ => hplan,
        fun _ h => absurd h (by decide), Or.inr (Or.inl (by rw [hplan]))⟩
    | true =>
      have h1 : (plan_day textField true classify client outcome decode).1 = 200 := by
        simp [plan_day, hie]
      have h2 : (respEnvelope
          (plan_day textField true classify client outcome decode)).isSome = true := by
        simp [plan_day, hie, respEnvelope]
      exact ⟨fun h => absurd h he, fun _ h => absurd h (by decide),
        fun _ _ => ⟨h1, h2⟩, Or.inr (Or.inr h1)⟩

theorem plan_day_status_partition_witness :
    plan_day none true classify0 none LLMOutcome.error decode0
      = (400, Body.error ("No text provided".toList)) ∧
    plan_day (some ("hi".toList)) false classify0 none LLMOutcome.error decode0
      = (500, Body.error ("Sentiment model not loaded".toList)) ∧
    (plan_day (some ("hi".toList)) true classify0 none LLMOutcome.error decode0).1
      = 200 :=
  ⟨(plan_day_status_partition none true classify0 none LLMOutcome.error decode0).1
      rfl,
   (plan_day_status_partition (some ("hi".toList)) false classify0 none
      LLMOutcome.error decode0).2.1 (by decide) rfl,
   ((plan_day_status_partition (some ("hi".toList)) true classify0 none
      LLMOutcome.error decode0).2.2.1 (by decide) rfl).1⟩

/-- C3: on the success path, the derived emotion is "Stressed" exactly
when the sentiment label is NEGATIVE or the task count is at least 8,
and "Balanced" otherwise; the score never affects the decision. -/
theorem emotion_decision_rule
    (text : List Char) (classify : List Char → List Char × ℚ)
    (client : Option Unit) (outcome : LLMOutcome)
    (decode : List Char → Option (List Suggestion)) (htext : text ≠ []) :
    (emotionOf (plan_day (some text) true classify client outcome decode)
        = some ("Stressed".toList) ↔
      (classify (text.take 500)).1 = "NEGATIVE".toList ∨
        8 ≤ (build_tasks_from_text text).length) ∧
    (emotionOf (plan_day (some text) true classify client outcome decode)
        = some ("Stressed".toList) ∨
     emotionOf (plan_day (some text) true classify client outcome decode)
        = some ("Balanced".toList)) ∧
    countOf (plan_day (some text) true classify client outcome decode)
      = some (build_tasks_from_text text).length ∧
    ∀ classify2 : List Char → List Char × ℚ,
      (classify2 (text.take 500)).1 = (classify (text.take 500)).1 →
      emotionOf (plan_day (some text) true classify2 client outcome decode)
        = emotionOf (plan_day (some text) true classify client outcome decode) := by
  rw [emotionOf_plan_day text htext classify client outcome decode,
    countOf_plan_day text htext classify client outcome decode]
  refine ⟨?_, ?_, rfl, ?_⟩
  · by_cases h : (classify (text.take 500)).1 = "NEGATIVE".toList ∨
        8 ≤ (build_tasks_from_text text).length
    · exact iff_of_true (by rw [if_pos h]) h
    · rw [if_neg h]
      constructor
      · intro hb
        exact absurd (Option.some_inj.mp hb) (by decide)
      · intro hc
        exact absurd hc h
  · by_cases h : (classify (text.take 500)).1 = "NEGATIVE".toList ∨
        8 ≤ (build_tasks_from_text text).length
    · rw [if_pos h]
      exact Or.inl rfl
    · rw [if_neg h]
      exact Or.inr rfl
  · intro classify2 hlab
    rw [emotionOf_plan_day text htext classify2 client outcome decode, hlab]

theorem emotion_decision_rule_witness :
    (emotionOf (plan_day (some ("hi".toList)) true classify0 none
        LLMOutcome.error decode0) = some ("Stressed".toList) ↔
      (classify0 (("hi".toList).take 500)).1 = "NEGATIVE".toList ∨
        8 ≤ (build_tasks_from_text ("hi".toList)).length) ∧
    (emotionOf (plan_day (some ("hi".toList)) true classify0 none
        LLMOutcome.error decode0) = some ("Stressed".toList) ∨
     emotionOf (plan_day (some ("hi".toList)) true classify0 none
        LLMOutcome.error decode0) = some ("Balanced".toList)) ∧
    countOf (plan_day (some ("hi".toList)) true classify0 none
        LLMOutcome.error decode0)
      = some (build_tasks_from_text ("hi".toList)).length ∧
    emotionOf (plan_day (some ("hi".toList)) true classify0 none
        LLMOutcome.error decode0)
      = emotionOf (plan_day (some ("hi".toList)) true classify0 none
        LLMOutcome.error decode0) :=
  have T := emotion_decision_rule ("hi".toList) classify0 none LLMOutcome.error
    decode0 (by decide)
  ⟨T.1, T.2.1, T.2.2.1, T.2.2.2 classify0 rfl⟩

/-- C4 counterexample: on the input "Lunch at 12 to 1, Call mom at 3" the
first task's start is "12 " (the regex's greedy whitespace stage keeps
the trailing space), not "12" as the claim's example states. -/
theorem task_builder_example_counterexample :
    (build_tasks_from_text ("Lunch at 12 to 1, Call mom at 3".toList)).map
        (fun t => (t.start, t.«end»))
      ≠ [(some ("12".toList), some ("1".toList)), (some ("3".toList), none)] := by
  decide

/-- C4 amended: the Task Builder splits on '.', ',' and ';', trims and
discards empty fragments, discards fragments with no time match, and per
surviving fragment emits one task with the first extracted time as start
and the second (or null) as end, in input order; the example input yields
starts/ends ("12 ", "1") and ("3", null) — the first start carrying the
trailing space the extractor matched. -/
theorem task_builder_contract_amended :
    (∀ raw, build_tasks_from_text raw = specTasks raw) ∧
    (build_tasks_from_text ("Lunch at 12 to 1, Call mom at 3".toList)).map
        (fun t => (t.start, t.«end»))
      = [(some ("12 ".toList), some ("1".toList)), (some ("3".toList), none)] := by
  constructor
  · intro raw
    unfold build_tasks_from_text specTasks specFragments
    exact buildTasksAux_eq_filterMap _
  · decide

/-- C5 counterexample: on the fragment "MOM a1 at 3" the code derives the
title "Mom a1 at" — the digit '1' inside the word "a1" is not at a word
boundary so deletion starts at the later digit '3', and `capitalize`
lower-cases everything after the first character — while the claim's rule
(delete from the first digit found, upper-case only the first character)
derives "MOM a". -/
theorem title_rule_counterexample :
    (build_tasks_from_text ("MOM a1 at 3".toList)).map Task.title
      = ["Mom a1 at".toList] ∧
    claimTitleC5 ("MOM a1 at 3".toList) = "MOM a".toList ∧
    (build_tasks_from_text ("MOM a1 at 3".toList)).map Task.title
      ≠ [claimTitleC5 ("MOM a1 at 3".toList)] := by
  decide

/-- C5 amended: the title deletes everything from the first digit that is
not immediately preceded by a letter, digit or underscore and that no
newline follows (except possibly as the fragment's final character),
trims whitespace, upper-cases the first character and lower-cases the
rest; if the result is empty the title is "Task". -/
theorem title_rule_amended :
    (∀ s, mkTitle s = amendedTitleC5 s) ∧
    (∀ raw, (build_tasks_from_text raw).map Task.title
      = ((specFragments raw).filter
          (fun s => !(parse_time_range s).isEmpty)).map amendedTitleC5) := by
  refine ⟨mkTitle_eq_amended, ?_⟩
  intro raw
  unfold build_tasks_from_text specFragments
  exact buildTasksAux_titles _

/-- C6: with an empty task list or an uninitialized LLM client, the
Suggestion Generator returns the empty list immediately and issues no
external chat-completion call (the boolean call-flag is false). -/
theorem empty_tasks_or_no_client_skips_llm
    (tasks : List Task) (emotion : List Char) (client : Option Unit)
    (outcome : LLMOutcome) (decode : List Char → Option (List Suggestion))
    (h : tasks = [] ∨ client = none) :
    generate_dynamic_suggestions tasks emotion client outcome decode
      = (false, []) := by
  rcases h with h | h <;> subst h <;> simp [generate_dynamic_suggestions]

theorem empty_tasks_or_no_client_skips_llm_witness :
    generate_dynamic_suggestions [] [] (some ()) LLMOutcome.error decode0
      = (false, []) :=
  empty_tasks_or_no_client_skips_llm [] [] (some ()) LLMOutcome.error decode0
    (Or.inl rfl)

/-- C7 counterexample: on "Lunch at 12 to 1" the extractor returns
["12 ", "1"] — the first match ends in a space, which no substring of the
claimed whitespace-free pattern can — so the output is not the sequence
of substrings matching the pattern as C7 words it. -/
theorem time_extractor_counterexample :
    parse_time_range ("Lunch at 12 to 1".toList) = ["12 ".toList, "1".toList] ∧
    claimTimeMatches ("Lunch at 12 to 1".toList) = ["12".toList, "1".toList] ∧
    parse_time_range ("Lunch at 12 to 1".toList)
      ≠ claimTimeMatches ("Lunch at 12 to 1".toList) := by
  decide

/-- C7 amended: the extractor returns exactly the substrings matching
"1-2 digits, optionally ':' and two digits, then any run of whitespace,
then an optional am/pm suffix" (case-insensitive, left-to-right, no
deduplication, no semantic validation — "99:99" matches), so a match may
carry trailing whitespace even without a suffix; empty input yields the
empty sequence. -/
theorem time_extractor_amended :
    (∀ s, parse_time_range s = amendedTimeMatches s) ∧
    parse_time_range [] = [] ∧
    parse_time_range ("99:99".toList) = ["99:99".toList] :=
  ⟨fun s => findallTimeAux_eq_amended s.length s, rfl, by decide⟩

/-- C8: on the success path the sentiment classifier is applied to exactly
the first 500 characters of the text while the Task Builder gets the full
text; two nonempty inputs agreeing on their first 500 characters receive
the same sentiment result. -/
theorem sentiment_truncation_rule
    (text : List Char) (classify : List Char → List Char × ℚ)
    (client : Option Unit) (outcome : LLMOutcome)
    (decode : List Char → Option (List Suggestion)) (htext : text ≠ []) :
    sentimentOf (plan_day (some text) true classify client outcome decode)
      = some (classify (text.take 500)).1 ∧
    scoreOf (plan_day (some text) true classify client outcome decode)
      = some (classify (text.take 500)).2 ∧
    tasksOf (plan_day (some text) true classify client outcome decode)
      = some (build_tasks_from_text text) ∧
    ∀ text2 : List Char, text2 ≠ [] → text2.take 500 = text.take 500 →
      sentimentOf (plan_day (some text2) true classify client outcome decode)
        = sentimentOf (plan_day (some text) true classify client outcome decode) ∧
      scoreOf (plan_day (some text2) true classify client outcome decode)
        = scoreOf (plan_day (some text) true classify client outcome decode) := by
  refine ⟨sentimentOf_plan_day text htext classify client outcome decode,
    scoreOf_plan_day text htext classify client outcome decode,
    tasksOf_plan_day text htext classify client outcome decode, ?_⟩
  intro text2 h2 hagree
  constructor
  · rw [sentimentOf_plan_day text2 h2 classify client outcome decode,
      sentimentOf_plan_day text htext classify client outcome decode, hagree]
  · rw [scoreOf_plan_day text2 h2 classify client outcome decode,
      scoreOf_plan_day text htext classify client outcome decode, hagree]

theorem sentiment_truncation_rule_witness :
    sentimentOf (plan_day (some ("hi".toList)) true classify0 none
        LLMOutcome.error decode0)
      = some (classify0 (("hi".toList).take 500)).1 ∧
    tasksOf (plan_day (some ("hi".toList)) true classify0 none
        LLMOutcome.error decode0)
      = some (build_tasks_from_text ("hi".toList)) ∧
    sentimentOf (plan_day (some ("hi".toList)) true classify0 none
        LLMOutcome.error decode0)
      = sentimentOf (plan_day (some ("hi".toList)) true classify0 none
        LLMOutcome.error decode0) :=
  have T := sentiment_truncation_rule ("hi".toList) classify0 none
    LLMOutcome.error decode0 (by decide)
  ⟨T.1, T.2.2.1, (T.2.2.2 ("hi".toList) (by decide) rfl).1⟩

/-- C9: every task returned by the Task Builder has a non-null start (the
first extracted time) and a non-empty title; only the end can be null. -/
theorem task_fields_invariant (raw : List Char) (t : Task)
    (ht : t ∈ build_tasks_from_text raw) :
    t.start.isSome = true ∧ t.title ≠ [] := by
  unfold build_tasks_from_text at ht
  exact mem_buildTasksAux ht

theorem task_fields_invariant_witness :
    (⟨"A".toList, some ("3".toList), none⟩ : Task)
      ∈ build_tasks_from_text ("a 3".toList) ∧
    ((⟨"A".toList, some ("3".toList), none⟩ : Task).start.isSome = true ∧
     (⟨"A".toList, some ("3".toList), none⟩ : Task).title ≠ []) :=
  ⟨by decide, task_fields_invariant ("a 3".toList) _ (by decide)⟩

/-- C10: every HTTP 200 response has taskCount equal to the length of its
tasks list, and the message is one of two fixed strings selected solely
by whether taskCount is at least 8. -/
theorem envelope_count_message_invariant
    (text : List Char) (classify : List Char → List Char × ℚ)
    (client : Option Unit) (outcome : LLMOutcome)
    (decode : List Char → Option (List Suggestion)) (htext : text ≠ []) :
    countOf (plan_day (some text) true classify client outcome decode)
      = some (build_tasks_from_text text).length ∧
    tasksOf (plan_day (some text) true classify client outcome decode)
      = some (build_tasks_from_text text) ∧
    messageOf (plan_day (some text) true classify client outcome decode)
      = some (if 8 ≤ (build_tasks_from_text text).length
          then hecticMessage else balancedMessage) ∧
    hecticMessage ≠ balancedMessage :=
  ⟨countOf_plan_day text htext classify client outcome decode,
   tasksOf_plan_day text htext classify client outcome decode,
   messageOf_plan_day text htext classify client outcome decode,
   by decide⟩

theorem envelope_count_message_invariant_witness :
    countOf (plan_day (some ("hi".toList)) true classify0 none
        LLMOutcome.error decode0)
      = some (build_tasks_from_text ("hi".toList)).length ∧
    messageOf (plan_day (some ("hi".toList)) true classify0 none
        LLMOutcome.error decode0)
      = some (if 8 ≤ (build_tasks_from_text ("hi".toList)).length
          then hecticMessage else balancedMessage) :=
  have T := envelope_count_message_invariant ("hi".toList) classify0 none
    LLMOutcome.error decode0 (by decide)
  ⟨T.1, T.2.2.1⟩

end SmartPlanner
